import Mathlib

/-!
# Verification of the greeting-and-persistence use case

Shallow embedding of the `hello` feature of a NestJS template API:

* `SayHelloUseCase.execute` (src/src/hello — say-hello.usecase.ts): computes
  `message = "Hello " + (name ?? "World") + "!"`, persists a record through the
  repository, and returns `{ id, name, message }`.
* `HelloController.say` (src/unnamed/part_000): passes the optional `name`
  query parameter unchanged to the use case and returns its result.
* `seed` (src/unnamed/part_001): inserts the two fixed sample rows
  (`Alice`, `Bob`).
* The Record Store itself is a TypeORM repository over the Postgres `hellos`
  table; the table shape comes from the migration (src/unnamed/part_003):
  auto-increment integer primary key, `varchar(100)` nullable `name`,
  non-null `text` message, `timestamptz` createdAt defaulting to `now()`.
  The store's runtime behaviour is not TypeScript code of this repository, so
  it is modelled from the spec and the migration, as explicit state passing.

Timestamps are modelled as natural numbers (the store's clock at insertion
time); machine integers do not overflow in the modelled range, so ids are
natural numbers.
-/

namespace HelloApi

/-- Error taxonomy of the Record Store, from the spec's section 7:
`StorageUnavailable` when the store cannot be reached, `ConstraintViolation`
when a column constraint (the `varchar(100)` bound on `name`) is violated. -/
inductive StoreError where
  | storageUnavailable : StoreError
  | constraintViolation : StoreError
deriving DecidableEq, Repr

/-- A row of the `hellos` table, embedding `HelloEntity`
(src/src/hello/infra/hello.entity.ts): generated integer `id`, nullable
`name` (an absent TypeScript value is `none`), required `message`,
store-assigned `createdAt`. -/
structure HelloEntity where
  id : Nat
  name : Option String
  message : String
  createdAt : Nat
deriving DecidableEq, Repr

/-- Modelled from the spec: the Record Store state. The repository's own code
only declares the store (entity + migration); the running store is Postgres.
`available` models reachability of the database, `nextId` the auto-increment
sequence of the `id` primary key (migration src/unnamed/part_003), `rows`
the table contents in insertion order. -/
structure Store where
  available : Bool
  nextId : Nat
  rows : List HelloEntity
deriving DecidableEq, Repr

/-- The `varchar(100)` column constraint on `name` from the migration
(src/unnamed/part_003): a null name is fine, a present name must be at most
100 characters. -/
def nameLengthOk : Option String → Bool
  | none => true
  | some n => decide (n.length ≤ 100)

/-- Modelled from the spec: `create(name?, message)` of the Record Store
(section 4.2) — the insert performed by `repo.save` / `repo.insert`.
Fails with `storageUnavailable` when the store cannot be reached and with
`constraintViolation` when the `name` exceeds the column bound; otherwise
inserts exactly one row with the next generated id and the store's clock as
`createdAt`, and returns the persisted row. The state component of the
result is the store after the call: unchanged on every error. -/
def Store.create (s : Store) (name : Option String) (message : String)
    (now : Nat) : Store × Except StoreError HelloEntity :=
  if s.available then
    if nameLengthOk name then
      let row : HelloEntity :=
        { id := s.nextId, name := name, message := message, createdAt := now }
      ({ s with nextId := s.nextId + 1, rows := s.rows ++ [row] },
        Except.ok row)
    else (s, Except.error StoreError.constraintViolation)
  else (s, Except.error StoreError.storageUnavailable)

/-- The message derivation of the use case:
`const message = \x7bHello $\x7bname ?? 'World'\x7d!\x7d` (template literal in
say-hello.usecase.ts). -/
def helloMessage (name : Option String) : String :=
  "Hello " ++ name.getD "World" ++ "!"

/-- The use case's return value: `\x7b id: saved.id, name: saved.name,
message: saved.message \x7d` — by construction it has no `createdAt` field. -/
structure ExecuteResult where
  id : Nat
  name : Option String
  message : String
deriving DecidableEq, Repr

namespace SayHelloUseCase

/-- Embeds `SayHelloUseCase.execute(name?)` (say-hello.usecase.ts): derive the
message, ask the store to persist (`repo.create` builds the entity from
`name` and `message` only, `repo.save` inserts it), and return the saved
row's `id`, `name`, `message`. A store error propagates unchanged. -/
def execute (s : Store) (name : Option String) (now : Nat) :
    Store × Except StoreError ExecuteResult :=
  let message := helloMessage name
  match s.create name message now with
  | (s2, Except.ok saved) =>
      (s2, Except.ok
        { id := saved.id, name := saved.name, message := saved.message })
  | (s2, Except.error e) => (s2, Except.error e)

end SayHelloUseCase

/-- JSON values occurring in the serialized response. -/
inductive Json where
  | num : Nat → Json
  | str : String → Json
  | null : Json
deriving DecidableEq, Repr

/-- JSON object produced for a use-case result by the HTTP layer, following
JavaScript `JSON.stringify` semantics on the TypeScript value
`\x7b id, name, message \x7d` where `name` has type `string | undefined`:
a property holding `undefined` is omitted from the serialized object, so the
`name` key appears exactly when a name is present. -/
def ExecuteResult.toJson (r : ExecuteResult) : List (String × Json) :=
  ("id", Json.num r.id) ::
    (match r.name with
      | none => []
      | some n => [("name", Json.str n)]) ++ [("message", Json.str r.message)]

namespace HelloController

/-- Embeds `HelloController.say(@Query('name') name?)`
(src/unnamed/part_000): it forwards the optional query parameter to the use
case unchanged and returns the use case's result. -/
def say (s : Store) (name : Option String) (now : Nat) :
    Store × Except StoreError ExecuteResult :=
  SayHelloUseCase.execute s name now

/-- The HTTP status of the handler: Nest's default for a GET handler with no
`@HttpCode` override is 200. -/
def statusCode : Nat := 200

end HelloController

/-- Embeds the seed script (src/unnamed/part_001): inserts the two fixed
sample rows `\x7b name: 'Alice', message: 'Hello Alice!' \x7d` and
`\x7b name: 'Bob', message: 'Hello Bob!' \x7d` through the store. -/
def seed (s : Store) (now : Nat) : Store × Except StoreError Unit :=
  match s.create (some "Alice") "Hello Alice!" now with
  | (s1, Except.ok _) =>
      match s1.create (some "Bob") "Hello Bob!" now with
      | (s2, Except.ok _) => (s2, Except.ok ())
      | (s2, Except.error e) => (s2, Except.error e)
  | (s1, Except.error e) => (s1, Except.error e)

/-- The spec's record invariant: a stored record's `message` is non-empty and
consistent with its `name` under the derivation rule. -/
def recordOk (r : HelloEntity) : Prop :=
  r.message ≠ "" ∧ r.message = helloMessage r.name

/-- The store as the migration creates it: reachable, empty, with the id
sequence starting at 1. -/
def initialStore : Store := { available := true, nextId := 1, rows := [] }

/-- On a reachable store with an admissible name, `create` inserts exactly the
expected row and returns it. -/
theorem create_ok (s : Store) (name : Option String) (message : String)
    (now : Nat) (ha : s.available = true) (hn : nameLengthOk name = true) :
    s.create name message now =
      ({ s with
          nextId := s.nextId + 1
          rows := s.rows ++
            [{ id := s.nextId, name := name, message := message,
               createdAt := now }] },
        Except.ok
          { id := s.nextId, name := name, message := message,
            createdAt := now }) := by
  simp [Store.create, ha, hn]

/-- On a reachable store with an admissible name, `execute` succeeds with the
next id, the given name and the derived message. -/
theorem execute_ok (s : Store) (name : Option String) (now : Nat)
    (ha : s.available = true) (hn : nameLengthOk name = true) :
    SayHelloUseCase.execute s name now =
      ({ s with
          nextId := s.nextId + 1
          rows := s.rows ++
            [{ id := s.nextId, name := name, message := helloMessage name,
               createdAt := now }] },
        Except.ok
          { id := s.nextId, name := name, message := helloMessage name }) := by
  simp [SayHelloUseCase.execute, Store.create, ha, hn]

/-- Inversion: a successful `execute` call only happens on a reachable store
with an admissible name, returns the next generated id with the input name
and derived message, and appends exactly one row. -/
theorem execute_ok_inv (s : Store) (name : Option String) (now : Nat)
    (s2 : Store) (res : ExecuteResult)
    (h : SayHelloUseCase.execute s name now = (s2, Except.ok res)) :
    s.available = true ∧ nameLengthOk name = true ∧
    res = { id := s.nextId, name := name, message := helloMessage name } ∧
    s2 = { s with
      nextId := s.nextId + 1
      rows := s.rows ++
        [{ id := s.nextId, name := name, message := helloMessage name,
           createdAt := now }] } := by
  by_cases ha : s.available = true
  · by_cases hn : nameLengthOk name = true
    · rw [execute_ok s name now ha hn] at h
      injection h with hfst hsnd
      injection hsnd with hres
      exact ⟨ha, hn, hres.symm, hfst.symm⟩
    · have hx : SayHelloUseCase.execute s name now =
          (s, Except.error StoreError.constraintViolation) := by
        simp [SayHelloUseCase.execute, Store.create, ha, hn]
      rw [hx] at h
      injection h with hfst hsnd
      exact absurd hsnd (by simp)
  · have hx : SayHelloUseCase.execute s name now =
        (s, Except.error StoreError.storageUnavailable) := by
      simp [SayHelloUseCase.execute, Store.create, ha]
    rw [hx] at h
    injection h with hfst hsnd
    exact absurd hsnd (by simp)

/-- Inversion: a failed `execute` call leaves the store unchanged and its
error is exactly the error of the underlying `create` call. -/
theorem execute_error_inv (s : Store) (name : Option String) (now : Nat)
    (s2 : Store) (e : StoreError)
    (h : SayHelloUseCase.execute s name now = (s2, Except.error e)) :
    s2 = s ∧ s.create name (helloMessage name) now = (s, Except.error e) := by
  by_cases ha : s.available = true
  · by_cases hn : nameLengthOk name = true
    · rw [execute_ok s name now ha hn] at h
      injection h with hfst hsnd
      exact absurd hsnd (by simp)
    · have hx : SayHelloUseCase.execute s name now =
          (s, Except.error StoreError.constraintViolation) := by
        simp [SayHelloUseCase.execute, Store.create, ha, hn]
      rw [hx] at h
      injection h with hfst hsnd
      injection hsnd with herr
      refine ⟨hfst.symm, ?_⟩
      rw [← herr]
      simp [Store.create, ha, hn]
  · have hx : SayHelloUseCase.execute s name now =
        (s, Except.error StoreError.storageUnavailable) := by
      simp [SayHelloUseCase.execute, Store.create, ha]
    rw [hx] at h
    injection h with hfst hsnd
    injection hsnd with herr
    refine ⟨hfst.symm, ?_⟩
    rw [← herr]
    simp [Store.create, ha]

/-- The derived message is never the empty string: it always starts with
`Hello ` and ends with `!`. -/
theorem helloMessage_ne_empty (name : Option String) :
    helloMessage name ≠ "" := by
  intro h
  have hlen := congrArg String.length h
  simp [helloMessage, String.length_append] at hlen
  exact absurd hlen.2 (by decide)

/-- A store whose database cannot be reached, used to exercise the error
path. -/
def downStore : Store := { available := false, nextId := 1, rows := [] }

/-- Claim C1: on a reachable store, `execute()` with an absent name returns
`message = "Hello World!"` and an absent name, and `execute(n)` with a
present name of 1 to 100 characters returns `message = "Hello " ++ n ++ "!"`
and `name = n`. -/
theorem claim_C1 (s : Store) (now : Nat) (ha : s.available = true) :
    (SayHelloUseCase.execute s none now).2 =
      Except.ok { id := s.nextId, name := none, message := "Hello World!" } ∧
    ∀ n : String, 1 ≤ n.length → n.length ≤ 100 →
      (SayHelloUseCase.execute s (some n) now).2 =
        Except.ok
          { id := s.nextId, name := some n,
            message := "Hello " ++ n ++ "!" } := by
  constructor
  · rw [execute_ok s none now ha rfl]
    rfl
  · intro n h1 h100
    rw [execute_ok s (some n) now ha (by simp [nameLengthOk, h100])]
    simp [helloMessage]

/-- Witness for C1 at the empty store, with the name `Alice`. -/
theorem claim_C1_witness :
    initialStore.available = true ∧
    1 ≤ "Alice".length ∧ "Alice".length ≤ 100 ∧
    (SayHelloUseCase.execute initialStore none 0).2 =
      Except.ok { id := 1, name := none, message := "Hello World!" } ∧
    (SayHelloUseCase.execute initialStore (some "Alice") 0).2 =
      Except.ok
        { id := 1, name := some "Alice", message := "Hello Alice!" } :=
  ⟨rfl, by decide, by decide, (claim_C1 initialStore 0 rfl).1,
    (claim_C1 initialStore 0 rfl).2 "Alice" (by decide) (by decide)⟩

/-- Claim C2: on a store whose rows all have ids below the id sequence,
a successful `execute` returns an id distinct from, previously unused by and
greater than the id of every earlier record, the property is preserved, and
a subsequent successful `execute` returns a strictly larger id. -/
theorem claim_C2 (s : Store) (name : Option String) (now : Nat)
    (hwf : ∀ r ∈ s.rows, r.id < s.nextId)
    (s2 : Store) (res : ExecuteResult)
    (h : SayHelloUseCase.execute s name now = (s2, Except.ok res)) :
    (∀ r ∈ s.rows, r.id ≠ res.id ∧ r.id < res.id) ∧
    (∀ r ∈ s2.rows, r.id < s2.nextId) ∧
    ∀ name2 now2 s3 res2,
      SayHelloUseCase.execute s2 name2 now2 = (s3, Except.ok res2) →
      res.id < res2.id := by
  obtain ⟨ha, hn, hres, hs2⟩ := execute_ok_inv s name now s2 res h
  subst hres
  subst hs2
  refine ⟨?_, ?_, ?_⟩
  · intro r hr
    exact ⟨Nat.ne_of_lt (hwf r hr), hwf r hr⟩
  · intro r hr
    rcases List.mem_append.mp hr with h1 | h1
    · exact Nat.lt_succ_of_lt (hwf r h1)
    · rw [List.mem_singleton] at h1
      subst h1
      exact Nat.lt_succ_self _
  · intro name2 now2 s3 res2 h2
    obtain ⟨_, _, hres2, _⟩ := execute_ok_inv _ name2 now2 s3 res2 h2
    subst hres2
    exact Nat.lt_succ_self _

/-- Witness for C2: two creations on the empty store get ids 1 and 2. -/
theorem claim_C2_witness : (1 : Nat) < 2 :=
  (claim_C2 initialStore (some "Bob") 0 (by simp [initialStore]) _ _
      rfl).2.2 (some "Bob") 1 _ _ rfl

/-- Claim C4: every call that succeeds inserts exactly one row into the
store, and a call that fails leaves the store unchanged (no partial state)
and surfaces, unchanged and without retry, exactly the error of the single
underlying `create` call. -/
theorem claim_C4 (s : Store) (name : Option String) (now : Nat) :
    (∀ s2 res, SayHelloUseCase.execute s name now = (s2, Except.ok res) →
      s2.rows.length = s.rows.length + 1) ∧
    (∀ s2 e, SayHelloUseCase.execute s name now = (s2, Except.error e) →
      s2 = s ∧
      s.create name (helloMessage name) now = (s, Except.error e)) := by
  constructor
  · intro s2 res h
    obtain ⟨_, _, _, hs2⟩ := execute_ok_inv s name now s2 res h
    subst hs2
    simp
  · intro s2 e h
    exact execute_error_inv s name now s2 e h

/-- Witness for C4: a call on the empty reachable store grows the table by
one row, and a call on an unreachable store leaves it unchanged. -/
theorem claim_C4_witness :
    (SayHelloUseCase.execute initialStore none 0).1.rows.length =
      initialStore.rows.length + 1 ∧
    (SayHelloUseCase.execute downStore none 0).1 = downStore :=
  ⟨(claim_C4 initialStore none 0).1 _ _ rfl,
    ((claim_C4 downStore none 0).2 _ _ rfl).1⟩

/-- Claim C7: the empty string is a present name, distinct from an absent
one: `execute("")` returns `message = "Hello !"` and `name = ""`, and that
message is not the absent-name message `"Hello World!"`. -/
theorem claim_C7 (s : Store) (now : Nat) (ha : s.available = true) :
    (SayHelloUseCase.execute s (some "") now).2 =
      Except.ok { id := s.nextId, name := some "", message := "Hello !" } ∧
    "Hello !" ≠ "Hello World!" := by
  refine ⟨?_, by decide⟩
  rw [execute_ok s (some "") now ha rfl]
  rfl

/-- Witness for C7 at the empty store. -/
theorem claim_C7_witness :
    (SayHelloUseCase.execute initialStore (some "") 0).2 =
      Except.ok { id := 1, name := some "", message := "Hello !" } :=
  (claim_C7 initialStore 0 rfl).1

/-- Claim C10: `execute("World")` and `execute()` produce the identical
message `"Hello World!"` while differing in the returned name (`World`
versus absent): the message alone does not determine whether a name was
supplied. -/
theorem claim_C10 (s s2 : Store) (now now2 : Nat)
    (ha : s.available = true) (ha2 : s2.available = true) :
    ∃ r1 r2 : ExecuteResult,
      (SayHelloUseCase.execute s (some "World") now).2 = Except.ok r1 ∧
      (SayHelloUseCase.execute s2 none now2).2 = Except.ok r2 ∧
      r1.message = "Hello World!" ∧ r2.message = "Hello World!" ∧
      r1.name = some "World" ∧ r2.name = none := by
  rw [execute_ok s (some "World") now ha rfl]
  rw [execute_ok s2 none now2 ha2 rfl]
  exact ⟨_, _, rfl, rfl, rfl, rfl, rfl, rfl⟩

/-- Counterexample to claim C3: on a GET request with no name, the
serialized response object has keys `id` and `message` only — the `name`
property holds `undefined` in the TypeScript value and `JSON.stringify`
omits it, so `name` is not present as `null`. -/
theorem claim_C3_counterexample :
    ∃ res : ExecuteResult,
      (HelloController.say initialStore none 0).2 = Except.ok res ∧
      res.toJson.map Prod.fst = ["id", "message"] ∧
      ("name", Json.null) ∉ res.toJson := by
  refine ⟨{ id := 1, name := none, message := "Hello World!" }, rfl, rfl, ?_⟩
  decide

/-- Claim C3 as amended: the HTTP adapter passes the optional `name` query
parameter unchanged to the use case and returns its result with status 200;
the serialized JSON always carries `id` (number) and `message` (string), and
carries `name` (string) exactly when a name was supplied — when no name was
given the `name` key is omitted, not serialized as `null`. -/
theorem claim_C3_amended (s : Store) (name : Option String) (now : Nat) :
    HelloController.say s name now = SayHelloUseCase.execute s name now ∧
    HelloController.statusCode = 200 ∧
    ∀ s2 res, HelloController.say s name now = (s2, Except.ok res) →
      res.name = name ∧
      ("id", Json.num res.id) ∈ res.toJson ∧
      ("message", Json.str res.message) ∈ res.toJson ∧
      res.toJson.map Prod.fst =
        (match name with
          | none => ["id", "message"]
          | some _ => ["id", "name", "message"]) ∧
      ∀ n, name = some n → ("name", Json.str n) ∈ res.toJson := by
  refine ⟨rfl, rfl, ?_⟩
  intro s2 res h
  obtain ⟨ha, hn, hres, _⟩ := execute_ok_inv s name now s2 res h
  subst hres
  refine ⟨rfl, ?_, ?_, ?_, ?_⟩
  · simp [ExecuteResult.toJson]
  · cases name <;> simp [ExecuteResult.toJson]
  · cases name <;> simp [ExecuteResult.toJson]
  · intro n hsome
    subst hsome
    simp [ExecuteResult.toJson]

/-- Witness for the amended C3, with and without a supplied name. -/
theorem claim_C3_amended_witness :
    HelloController.say initialStore (some "Alice") 0 =
      SayHelloUseCase.execute initialStore (some "Alice") 0 ∧
    HelloController.statusCode = 200 ∧
    ({ id := 1, name := some "Alice",
       message := "Hello Alice!" } : ExecuteResult).toJson.map Prod.fst =
      ["id", "name", "message"] ∧
    ({ id := 1, name := none,
       message := "Hello World!" } : ExecuteResult).toJson.map Prod.fst =
      ["id", "message"] :=
  ⟨(claim_C3_amended initialStore (some "Alice") 0).1,
    (claim_C3_amended initialStore (some "Alice") 0).2.1,
    ((claim_C3_amended initialStore (some "Alice") 0).2.2 _ _ rfl).2.2.2.1,
    ((claim_C3_amended initialStore none 0).2.2 _ _ rfl).2.2.2.1⟩

/-- A name of exactly 100 characters. -/
def name100 : String := String.mk (List.replicate 100 'a')

/-- A name of exactly 101 characters. -/
def name101 : String := String.mk (List.replicate 101 'a')

/-- Claim C5: on a reachable store, `execute` with a 100-character name
succeeds, while a 101-character name fails with the store's
`constraintViolation` — the very error `create` itself raises there, the
use case performing no length check of its own. -/
theorem claim_C5 (s : Store) (now : Nat) (n : String)
    (ha : s.available = true) :
    (n.length = 100 →
      (SayHelloUseCase.execute s (some n) now).2 =
        Except.ok
          { id := s.nextId, name := some n,
            message := helloMessage (some n) }) ∧
    (n.length = 101 →
      (SayHelloUseCase.execute s (some n) now).2 =
        Except.error StoreError.constraintViolation ∧
      (s.create (some n) (helloMessage (some n)) now).2 =
        Except.error StoreError.constraintViolation) := by
  constructor
  · intro h100
    rw [execute_ok s (some n) now ha (by simp [nameLengthOk, h100])]
  · intro h101
    have hn : nameLengthOk (some n) = false := by
      simp [nameLengthOk, h101]
    constructor
    · simp [SayHelloUseCase.execute, Store.create, ha, hn]
    · simp [Store.create, ha, hn]

/-- Witness for C5 with concrete names of 100 and 101 characters. -/
theorem claim_C5_witness :
    name100.length = 100 ∧ name101.length = 101 ∧
    (SayHelloUseCase.execute initialStore (some name100) 0).2 =
      Except.ok
        { id := 1, name := some name100,
          message := helloMessage (some name100) } ∧
    (SayHelloUseCase.execute initialStore (some name101) 0).2 =
      Except.error StoreError.constraintViolation :=
  ⟨rfl, rfl,
    (claim_C5 initialStore 0 name100 rfl).1 rfl,
    ((claim_C5 initialStore 0 name101 rfl).2 rfl).1⟩

/-- Claim C6: a successful `execute` appends exactly one row whose
`createdAt` is the store's clock at insertion time — the caller supplies
only the name, never a `createdAt` — all previously stored rows (and their
timestamps) are untouched, and the returned value is built from exactly the
row's `id`, `name` and `message`, with no `createdAt` field. -/
theorem claim_C6 (s : Store) (name : Option String) (now : Nat)
    (s2 : Store) (res : ExecuteResult)
    (h : SayHelloUseCase.execute s name now = (s2, Except.ok res)) :
    ∃ row : HelloEntity,
      s2.rows = s.rows ++ [row] ∧
      row.createdAt = now ∧
      res = { id := row.id, name := row.name, message := row.message } := by
  obtain ⟨ha, hn, hres, hs2⟩ := execute_ok_inv s name now s2 res h
  subst hres
  subst hs2
  exact ⟨_, rfl, rfl, rfl⟩

/-- Witness for C6 at the empty store with clock value 5. -/
theorem claim_C6_witness :
    ∃ row : HelloEntity,
      (SayHelloUseCase.execute initialStore (some "Alice") 5).1.rows =
        initialStore.rows ++ [row] ∧
      row.createdAt = 5 ∧
      ({ id := 1, name := some "Alice",
         message := "Hello Alice!" } : ExecuteResult) =
        { id := row.id, name := row.name, message := row.message } :=
  claim_C6 initialStore (some "Alice") 5 _ _ rfl

/-- Claim C8: if every stored record has a non-empty message consistent with
its name under the derivation rule, then after any `execute` call and after
the seed operation (which inserts the fixed `Alice` and `Bob` rows) every
stored record still does. -/
theorem claim_C8 (s : Store) (now : Nat)
    (hinv : ∀ r ∈ s.rows, recordOk r) :
    (∀ name, ∀ r ∈ (SayHelloUseCase.execute s name now).1.rows,
      recordOk r) ∧
    (∀ r ∈ (seed s now).1.rows, recordOk r) := by
  constructor
  · intro name r hr
    by_cases ha : s.available = true
    · by_cases hn : nameLengthOk name = true
      · rw [execute_ok s name now ha hn] at hr
        rcases List.mem_append.mp hr with h1 | h1
        · exact hinv r h1
        · rw [List.mem_singleton] at h1
          subst h1
          exact ⟨helloMessage_ne_empty name, rfl⟩
      · have hx : SayHelloUseCase.execute s name now =
            (s, Except.error StoreError.constraintViolation) := by
          simp [SayHelloUseCase.execute, Store.create, ha, hn]
        rw [hx] at hr
        exact hinv r hr
    · have hx : SayHelloUseCase.execute s name now =
          (s, Except.error StoreError.storageUnavailable) := by
        simp [SayHelloUseCase.execute, Store.create, ha]
      rw [hx] at hr
      exact hinv r hr
  · intro r hr
    by_cases ha : s.available = true
    · have hA : nameLengthOk (some "Alice") = true := rfl
      have hB : nameLengthOk (some "Bob") = true := rfl
      simp [seed, Store.create, ha, hA, hB] at hr
      rcases hr with h1 | h1 | h1
      · exact hinv r h1
      · subst h1
        exact ⟨fun hfalse =>
          absurd hfalse (show ¬("Hello Alice!" = "") by decide), rfl⟩
      · subst h1
        exact ⟨fun hfalse =>
          absurd hfalse (show ¬("Hello Bob!" = "") by decide), rfl⟩
    · have hx : seed s now =
          (s, Except.error StoreError.storageUnavailable) := by
        simp [seed, Store.create, ha]
      rw [hx] at hr
      exact hinv r hr

/-- Witness for C8: both rows inserted by the seed operation on the empty
store are consistent with the derivation rule. -/
theorem claim_C8_witness :
    recordOk
      { id := 1, name := some "Alice", message := "Hello Alice!",
        createdAt := 0 } ∧
    recordOk
      { id := 2, name := some "Bob", message := "Hello Bob!",
        createdAt := 0 } :=
  ⟨(claim_C8 initialStore 0 (by simp [initialStore])).2
      { id := 1, name := some "Alice", message := "Hello Alice!",
        createdAt := 0 } (by decide),
    (claim_C8 initialStore 0 (by simp [initialStore])).2
      { id := 2, name := some "Bob", message := "Hello Bob!",
        createdAt := 0 } (by decide)⟩

/-- Claim C9: two successive `execute` calls with the same input name yield
records that differ in id but agree in name and message, and the computed
name and message are a function of the input alone — for every store they
are the input name and its derived message, independent of prior store
contents. -/
theorem claim_C9 (s : Store) (name : Option String) (now now2 : Nat)
    (s1 : Store) (res1 : ExecuteResult) (s3 : Store) (res2 : ExecuteResult)
    (h1 : SayHelloUseCase.execute s name now = (s1, Except.ok res1))
    (h2 : SayHelloUseCase.execute s1 name now2 = (s3, Except.ok res2)) :
    res1.id ≠ res2.id ∧
    res1.name = res2.name ∧ res1.message = res2.message ∧
    res1.name = name ∧ res1.message = helloMessage name := by
  obtain ⟨_, _, hres1, hs1⟩ := execute_ok_inv s name now s1 res1 h1
  obtain ⟨_, _, hres2, _⟩ := execute_ok_inv s1 name now2 s3 res2 h2
  subst hs1
  subst hres1
  subst hres2
  exact ⟨Nat.ne_of_lt (Nat.lt_succ_self _), rfl, rfl, rfl, rfl⟩

/-- Witness for C9: `execute("Bob")` twice on the empty store yields the
records with ids 1 and 2 and the identical name and message. -/
theorem claim_C9_witness :
    ({ id := 1, name := some "Bob",
       message := "Hello Bob!" } : ExecuteResult).id ≠
      ({ id := 2, name := some "Bob",
         message := "Hello Bob!" } : ExecuteResult).id ∧
    ({ id := 1, name := some "Bob",
       message := "Hello Bob!" } : ExecuteResult).name =
      ({ id := 2, name := some "Bob",
         message := "Hello Bob!" } : ExecuteResult).name ∧
    ({ id := 1, name := some "Bob",
       message := "Hello Bob!" } : ExecuteResult).message =
      ({ id := 2, name := some "Bob",
         message := "Hello Bob!" } : ExecuteResult).message ∧
    ({ id := 1, name := some "Bob",
       message := "Hello Bob!" } : ExecuteResult).name = some "Bob" ∧
    ({ id := 1, name := some "Bob",
       message := "Hello Bob!" } : ExecuteResult).message =
      helloMessage (some "Bob") :=
  claim_C9 initialStore (some "Bob") 0 1 _ _ _ _ rfl rfl

/-- Witness for C10 at the empty store. -/
theorem claim_C10_witness :
    ∃ r1 r2 : ExecuteResult,
      (SayHelloUseCase.execute initialStore (some "World") 0).2 =
        Except.ok r1 ∧
      (SayHelloUseCase.execute initialStore none 0).2 = Except.ok r2 ∧
      r1.message = "Hello World!" ∧ r2.message = "Hello World!" ∧
      r1.name = some "World" ∧ r2.name = none :=
  claim_C10 initialStore initialStore 0 0 rfl rfl

end HelloApi
